import Mathlib

/-!
Verification of `src/check_materialization.py` (materialization_status).

The Python program audits a list of datastacks: it enumerates datastack
names (`get_datastacks_to_check`), queries the materialization
service of each one (`check_materialization`), and renders one report row per
successfully checked datastack (`format_row_data`, assembled in `main`).

Shallow embedding conventions:
* A remote call (or any Python expression that can raise) is modelled as
  `Except Unit α`; `Except.error ()` is an uncaught Python exception.
* `datetime` values are reduced to the part the program uses: the `.date()`
  component as a proleptic-Gregorian ordinal (`Int`).  Python date
  subtraction produces a `timedelta` whose `.days` is the exact integer
  difference of those ordinals.
* The `CAVEclient` object is a record of the members the program reads.
* `rich` styling is dropped: a report row is the list of the eight cell
  strings passed to `create_styled_text` (styling is presentation only).
-/

namespace MatStatus

/-- A Python `datetime.datetime`, reduced to its `.date()` as a
proleptic-Gregorian ordinal day number. -/
structure PyDateTime where
  dateOrdinal : Int
deriving Repr, DecidableEq

/-- The members of a `CAVEclient` that the program reads: the four
materialize-API accesses (each may raise) and the plain attribute
`local_server`. -/
structure MatClient where
  get_versions : Except Unit (List Int)
  get_versions_expired : Except Unit (List Int)
  get_timestamp : Int → Except Unit PyDateTime
  server_version : Except Unit String
  local_server : String

/-- Auxiliary fold for Python `max`: maximum of `a :: l`. -/
def pymaxAux (a : Int) (l : List Int) : Int :=
  l.foldl max a

/-- Python builtin `max` over a list of ints: raises `ValueError` on an
empty argument. -/
def pymax : List Int → Except Unit Int
  | [] => Except.error ()
  | a :: l => Except.ok (pymaxAux a l)

/-- The body of the `try:` block of `check_materialization`
(src/check_materialization.py, lines 48-52): the four fetch steps, any of
which may raise (including `max` on an empty version list). -/
def tryBlock (client : MatClient) : Except Unit (Int × Int × PyDateTime × String) :=
  match client.get_versions with
  | Except.error e => Except.error e
  | Except.ok versions =>
    match pymax versions with
    | Except.error e => Except.error e
    | Except.ok latest_version =>
      match client.get_versions_expired with
      | Except.error e => Except.error e
      | Except.ok versions_expired =>
        match pymax versions_expired with
        | Except.error e => Except.error e
        | Except.ok expected_latest_version =>
          match client.get_timestamp latest_version with
          | Except.error e => Except.error e
          | Except.ok latest_timestamp =>
            match client.server_version with
            | Except.error e => Except.error e
            | Except.ok sv =>
              Except.ok (latest_version, expected_latest_version, latest_timestamp, sv)

/-- The value tuple returned by `check_materialization`: it has five
components (the Python annotation on the function declares only four);
the fourth is `client.local_server` and is never `None`. -/
abbrev CheckResult :=
  Option Int × Option Int × Option PyDateTime × String × Option String

/-- Embedding of `check_materialization` (lines 43-64).  `CAVEclient(datastack)` — the
`clientFor` argument — runs before the `try:`, so an exception there
propagates to the caller; exceptions inside the `try:` are caught and all
four data fields are set to `None`, while `client.local_server` is still
returned. -/
def check_materialization (clientFor : String → Except Unit MatClient)
    (datastack : String) : Except Unit CheckResult :=
  match clientFor datastack with
  | Except.error e => Except.error e
  | Except.ok client =>
    match tryBlock client with
    | Except.ok (latest_version, expected_latest_version, latest_timestamp, sv) =>
      Except.ok (some latest_version, some expected_latest_version,
        some latest_timestamp, client.local_server, some sv)
    | Except.error _ =>
      Except.ok (none, none, none, client.local_server, none)

/-- Python `str` applied to an int-or-None value (`str(None) = "None"`). -/
def pyStrOptInt : Option Int → String
  | some n => toString n
  | none => "None"

/-- Python `==` between an `int` and an int-or-None value
(`int == None` is `False`), as used at line 163 of the source. -/
def pyEqIntOpt (l : Int) (ev : Option Int) : Bool :=
  match ev with
  | some e => l == e
  | none => false

/-- Embedding of `format_row_data` (lines 81-115), reduced to the eight cell strings
passed to `create_styled_text`.  `strftimeYmd` stands for
`date.strftime("%Y-%m-%d")`, an external library function of the date. -/
def format_row_data (datastack server sv : String)
    (latest_version : Int) (expected_latest_version : Option Int)
    (latest_timestamp : PyDateTime) (current_day : Int) (success : Bool)
    (strftimeYmd : Int → String) : List String :=
  let days_old : Int := current_day - latest_timestamp.dateOrdinal
  let formatted_timestamp : String := strftimeYmd latest_timestamp.dateOrdinal
  let status_message : String := if success then "Success" else "Failed"
  [datastack, server, sv, pyStrOptInt expected_latest_version,
    toString latest_version, formatted_timestamp,
    toString days_old, status_message]

/-- Python `sorted` on a list of strings: lexicographic, stable. -/
def pysorted (l : List String) : List String :=
  l.mergeSort

/-- The ambient effectful collaborators of the program: `CAVEclient`
construction per datastack, `CAVEclient(server).info.get_datastacks()`
per server, and the date formatter. -/
structure Env where
  clientFor : String → Except Unit MatClient
  info_get_datastacks : String → Except Unit (List String)
  strftimeYmd : Int → String

/-- The server loop inside `get_datastacks_to_check` (lines 131-137):
`datastacks_to_check.extend(sorted(client.info.get_datastacks()))` for each
server in order; a failure is not caught and aborts the run. -/
def fetchLoop (env : Env) : List String → List String → Except Unit (List String)
  | [], acc => Except.ok acc
  | server :: rest, acc =>
    match env.info_get_datastacks server with
    | Except.error e => Except.error e
    | Except.ok ds => fetchLoop env rest (acc ++ pysorted ds)

/-- Embedding of `get_datastacks_to_check` (lines 128-139), with the module globals
`SERVERS_TO_CHECK` and `DATASTACKS_TO_CHECK` passed explicitly. -/
def get_datastacks_to_check (env : Env)
    (SERVERS_TO_CHECK DATASTACKS_TO_CHECK : List String) :
    Except Unit (List String) :=
  if DATASTACKS_TO_CHECK.isEmpty then
    fetchLoop env SERVERS_TO_CHECK []
  else
    Except.ok (pysorted DATASTACKS_TO_CHECK)

/-- The audit loop of `main` (lines 150-176).  For each datastack:
run `check_materialization` (whose step-1 exception would propagate),
skip the datastack when `latest_version is None`, otherwise compute
`success = latest_version == expected_latest_version` and append the
formatted row.  The final catch-all arm models the `TypeError` /
`AttributeError` Python would raise if `latest_version` were non-None
while the timestamp or server version were `None`; that tuple shape is in
fact never produced, as proved below. -/
def auditLoop (env : Env) (current_day : Int) :
    List String → Except Unit (List (List String))
  | [] => Except.ok []
  | datastack :: rest =>
    match check_materialization env.clientFor datastack with
    | Except.error e => Except.error e
    | Except.ok (none, _, _, _, _) => auditLoop env current_day rest
    | Except.ok (some latest_version, expected_latest_version,
        some latest_timestamp, server, some sv) =>
      match auditLoop env current_day rest with
      | Except.error e => Except.error e
      | Except.ok rows =>
        Except.ok (format_row_data datastack server sv latest_version
          expected_latest_version latest_timestamp current_day
          (pyEqIntOpt latest_version expected_latest_version)
          env.strftimeYmd :: rows)
    | Except.ok (some _, _, _, _, _) => Except.error ()

/-- Embedding of `main` (lines 142-179): capture `current_day` from the clock once
(read index 0 of the clock stream), enumerate the datastacks, then run the
audit loop.  The report is the ordered list of rows added to the table. -/
def main (env : Env) (clock : Nat → Int)
    (SERVERS_TO_CHECK DATASTACKS_TO_CHECK : List String) :
    Except Unit (List (List String)) :=
  let current_day : Int := clock 0
  match get_datastacks_to_check env SERVERS_TO_CHECK DATASTACKS_TO_CHECK with
  | Except.error e => Except.error e
  | Except.ok datastacks_to_check => auditLoop env current_day datastacks_to_check

/-- A sample client whose every materialize call raises (an unreachable or
decommissioned service); `local_server` is still resolved. -/
def failClient : MatClient where
  get_versions := Except.error ()
  get_versions_expired := Except.error ()
  get_timestamp := fun _ => Except.error ()
  server_version := Except.error ()
  local_server := "https://global.daf-apis.com"

/-- A sample healthy client: active versions `{1, 3}`, expired-inclusive
versions `{1, 3, 5}` (a strict superset), a fixed timestamp, and a server
build label. -/
def goodClient : MatClient where
  get_versions := Except.ok [1, 3]
  get_versions_expired := Except.ok [1, 3, 5]
  get_timestamp := fun _ => Except.ok ⟨739000⟩
  server_version := Except.ok "4.35.2"
  local_server := "https://global.daf-apis.com"

/-- A sample factory resolving every datastack to `goodClient`. -/
def goodFor : String → Except Unit MatClient :=
  fun _ => Except.ok goodClient

/-- Per-server datastack listings for a sample two-server configuration. -/
def dsTwo : String → List String :=
  fun s => if s = "https://global.daf-apis.com"
    then ["zz_stack", "aa_stack"] else ["mm_stack"]

/-- A sample environment in which every datastack resolves to `goodClient`
and server listings follow `dsTwo`. -/
def envGood : Env where
  clientFor := fun _ => Except.ok goodClient
  info_get_datastacks := fun s => Except.ok (dsTwo s)
  strftimeYmd := fun _ => "2024-01-01"

/-- A sample environment in which the datastack `broken` resolves to the
always-failing client and every other datastack to `goodClient`. -/
def envMixed : Env where
  clientFor := fun d => Except.ok (if d = "broken" then failClient else goodClient)
  info_get_datastacks := fun s => Except.ok (dsTwo s)
  strftimeYmd := fun _ => "2024-01-01"

/-- A clock stream that reads day 739000 at index 0. -/
def clock1 : Nat → Int :=
  fun _ => 739000

/-- A clock stream that agrees with `clock1` at index 0 only. -/
def clock2 : Nat → Int :=
  fun n => if n = 0 then 739000 else 0

/-- The tuple `check_materialization` yields for `goodClient`. -/
def okTuple : CheckResult :=
  (some 3, some 5, some ⟨739000⟩, "https://global.daf-apis.com", some "4.35.2")

/-! ### Helper lemmas -/

theorem pymaxAux_mem (a : Int) (l : List Int) : pymaxAux a l ∈ a :: l := by
  induction l generalizing a with
  | nil => simp [pymaxAux]
  | cons b l ih =>
    have h := ih (max a b)
    simp only [pymaxAux, List.foldl_cons] at h ⊢
    rcases List.mem_cons.mp h with h1 | h1
    · rcases max_choice a b with hm | hm <;> rw [h1, hm] <;> simp
    · simp [h1]

theorem le_pymaxAux (a : Int) (l : List Int) : ∀ x ∈ a :: l, x ≤ pymaxAux a l := by
  induction l generalizing a with
  | nil =>
    intro x hx
    simp only [List.mem_singleton] at hx
    simp [pymaxAux, hx]
  | cons b l ih =>
    intro x hx
    simp only [pymaxAux, List.foldl_cons]
    have ihm := ih (max a b)
    rcases List.mem_cons.mp hx with rfl | hx2
    · exact le_trans (le_max_left x b) (ihm _ (List.mem_cons_self _ _))
    · rcases List.mem_cons.mp hx2 with rfl | hx3
      · exact le_trans (le_max_right a x) (ihm _ (List.mem_cons_self _ _))
      · exact ihm x (List.mem_cons_of_mem _ hx3)

theorem pymax_mem {l : List Int} {m : Int} (h : pymax l = Except.ok m) : m ∈ l := by
  cases l with
  | nil => simp [pymax] at h
  | cons a l =>
    simp only [pymax, Except.ok.injEq] at h
    rw [← h]
    exact pymaxAux_mem a l

theorem pymax_le {l : List Int} {m : Int} (h : pymax l = Except.ok m) :
    ∀ x ∈ l, x ≤ m := by
  cases l with
  | nil => simp [pymax] at h
  | cons a l =>
    simp only [pymax, Except.ok.injEq] at h
    rw [← h]
    exact le_pymaxAux a l

theorem tryBlock_ok_inv {c : MatClient} {l e0 : Int} {ts : PyDateTime} {sv : String}
    (h : tryBlock c = Except.ok (l, e0, ts, sv)) :
    ∃ act expd, c.get_versions = Except.ok act ∧
      c.get_versions_expired = Except.ok expd ∧
      pymax act = Except.ok l ∧ pymax expd = Except.ok e0 ∧
      c.get_timestamp l = Except.ok ts ∧ c.server_version = Except.ok sv := by
  unfold tryBlock at h
  cases hv : c.get_versions with
  | error e1 => simp only [hv] at h; simp at h
  | ok act =>
    simp only [hv] at h
    cases hm : pymax act with
    | error e1 => simp only [hm] at h; simp at h
    | ok latest =>
      simp only [hm] at h
      cases hv2 : c.get_versions_expired with
      | error e1 => simp only [hv2] at h; simp at h
      | ok expd =>
        simp only [hv2] at h
        cases hm2 : pymax expd with
        | error e1 => simp only [hm2] at h; simp at h
        | ok expected =>
          simp only [hm2] at h
          cases ht : c.get_timestamp latest with
          | error e1 => simp only [ht] at h; simp at h
          | ok ts2 =>
            simp only [ht] at h
            cases hs : c.server_version with
            | error e1 => simp only [hs] at h; simp at h
            | ok sv2 =>
              simp only [hs, Except.ok.injEq, Prod.mk.injEq] at h
              obtain ⟨rfl, rfl, rfl, rfl⟩ := h
              exact ⟨act, expd, rfl, rfl, hm, hm2, ht, rfl⟩

theorem check_inv {clientFor : String → Except Unit MatClient} {d : String}
    {t : CheckResult} (h : check_materialization clientFor d = Except.ok t) :
    ∃ c, clientFor d = Except.ok c ∧
      ((tryBlock c = Except.error () ∧ t = (none, none, none, c.local_server, none)) ∨
       (∃ l e0 ts sv, tryBlock c = Except.ok (l, e0, ts, sv) ∧
         t = (some l, some e0, some ts, c.local_server, some sv))) := by
  unfold check_materialization at h
  cases hcf : clientFor d with
  | error e1 => simp only [hcf] at h; simp at h
  | ok c =>
    simp only [hcf] at h
    refine ⟨c, rfl, ?_⟩
    cases htb : tryBlock c with
    | error e1 =>
      simp only [htb, Except.ok.injEq] at h
      cases e1
      exact Or.inl ⟨rfl, h.symm⟩
    | ok v =>
      obtain ⟨l, e0, ts, sv⟩ := v
      simp only [htb, Except.ok.injEq] at h
      exact Or.inr ⟨l, e0, ts, sv, rfl, h.symm⟩

theorem check_of_tryError {clientFor : String → Except Unit MatClient} {d : String}
    {c : MatClient} (h1 : clientFor d = Except.ok c)
    (h2 : tryBlock c = Except.error ()) :
    check_materialization clientFor d =
      Except.ok (none, none, none, c.local_server, none) := by
  unfold check_materialization
  simp only [h1, h2]

theorem auditLoop_cons_err (env : Env) (cd : Int) (d : String) (rest : List String)
    (h : check_materialization env.clientFor d = Except.error ()) :
    auditLoop env cd (d :: rest) = Except.error () := by
  simp [auditLoop, h]

theorem auditLoop_cons_none (env : Env) (cd : Int) (d : String) (rest : List String)
    {ev : Option Int} {tso : Option PyDateTime} {srv : String} {svo : Option String}
    (h : check_materialization env.clientFor d = Except.ok (none, ev, tso, srv, svo)) :
    auditLoop env cd (d :: rest) = auditLoop env cd rest := by
  simp [auditLoop, h]

theorem auditLoop_cons_row (env : Env) (cd : Int) (d : String) (rest : List String)
    {l : Int} {ev : Option Int} {ts : PyDateTime} {srv : String} {sv : String}
    (h : check_materialization env.clientFor d =
      Except.ok (some l, ev, some ts, srv, some sv)) :
    auditLoop env cd (d :: rest) =
      match auditLoop env cd rest with
      | Except.error e => Except.error e
      | Except.ok rows =>
        Except.ok (format_row_data d srv sv l ev ts cd
          (pyEqIntOpt l ev) env.strftimeYmd :: rows) := by
  simp [auditLoop, h]

theorem auditLoop_length (env : Env) (cd : Int) :
    ∀ (ds : List String) (rows : List (List String)),
      auditLoop env cd ds = Except.ok rows → rows.length ≤ ds.length := by
  intro ds
  induction ds with
  | nil =>
    intro rows h
    simp only [auditLoop, Except.ok.injEq] at h
    simp [← h]
  | cons d rest ih =>
    intro rows h
    cases hc : check_materialization env.clientFor d with
    | error e1 =>
      cases e1
      rw [auditLoop_cons_err env cd d rest hc] at h
      simp at h
    | ok t =>
      obtain ⟨c, -, hcase | hcase⟩ := check_inv hc
      · obtain ⟨-, rfl⟩ := hcase
        rw [auditLoop_cons_none env cd d rest hc] at h
        exact le_trans (ih rows h) (Nat.le_succ _)
      · obtain ⟨l, e0, ts, sv, -, rfl⟩ := hcase
        rw [auditLoop_cons_row env cd d rest hc] at h
        cases hr : auditLoop env cd rest with
        | error e1 => rw [hr] at h; simp at h
        | ok rows2 =>
          rw [hr] at h
          simp only [Except.ok.injEq] at h
          subst h
          simpa using Nat.succ_le_succ (ih rows2 hr)

theorem auditLoop_rows_shape (env : Env) (cd : Int) :
    ∀ (ds : List String) (rows : List (List String)),
      auditLoop env cd ds = Except.ok rows →
      ∀ row ∈ rows, ∃ d server sv l ev ts,
        row = format_row_data d server sv l ev ts cd
          (pyEqIntOpt l ev) env.strftimeYmd := by
  intro ds
  induction ds with
  | nil =>
    intro rows h row hrow
    simp only [auditLoop, Except.ok.injEq] at h
    rw [← h] at hrow
    simp at hrow
  | cons d rest ih =>
    intro rows h row hrow
    cases hc : check_materialization env.clientFor d with
    | error e1 =>
      cases e1
      rw [auditLoop_cons_err env cd d rest hc] at h
      simp at h
    | ok t =>
      obtain ⟨c, -, hcase | hcase⟩ := check_inv hc
      · obtain ⟨-, rfl⟩ := hcase
        rw [auditLoop_cons_none env cd d rest hc] at h
        exact ih rows h row hrow
      · obtain ⟨l, e0, ts, sv, -, rfl⟩ := hcase
        rw [auditLoop_cons_row env cd d rest hc] at h
        cases hr : auditLoop env cd rest with
        | error e1 => rw [hr] at h; simp at h
        | ok rows2 =>
          rw [hr] at h
          simp only [Except.ok.injEq] at h
          subst h
          rcases List.mem_cons.mp hrow with rfl | hrow2
          · exact ⟨d, c.local_server, sv, l, some e0, ts, rfl⟩
          · exact ih rows2 hr row hrow2

theorem fetchLoop_ok (env : Env) (ds : String → List String) :
    ∀ (servers acc : List String),
      (∀ s ∈ servers, env.info_get_datastacks s = Except.ok (ds s)) →
      fetchLoop env servers acc =
        Except.ok (acc ++ (servers.map fun s => pysorted (ds s)).flatten) := by
  intro servers
  induction servers with
  | nil => intro acc _; simp [fetchLoop]
  | cons s rest ih =>
    intro acc h
    have hs := h s (by simp)
    simp only [fetchLoop, hs]
    rw [ih (acc ++ pysorted (ds s)) (fun x hx => h x (by simp [hx]))]
    simp

/-! ### Claim theorems -/

/-- Claim C1, counterexample.  The claim says an exception in any of steps
1-5 — including step 1, client/session acquisition — is caught and the
null sentinel is returned.  In the code `CAVEclient(datastack)` runs
before the `try:`: with a client factory that raises, `check_materialization`
returns no tuple at all (the exception propagates), so no null sentinel is
produced. -/
theorem check_clientError_propagates :
    check_materialization (fun _ => Except.error ()) "minnie65_public" =
      Except.error () := rfl

/-- Claim C1, amended.  If the client is acquired successfully and any
exception is raised during steps 2-5 (fetching active versions, fetching
expired-inclusive versions, fetching the timestamp, fetching the server
version label — the body of the `try:`), `check_materialization` catches it
at whole-operation granularity and returns the null sentinel (all four data
fields `None`), producing no partial record.  An exception during step 1
(client acquisition) is not caught and propagates. -/
theorem check_fetchError_returns_sentinel (clientFor : String → Except Unit MatClient)
    (d : String) (c : MatClient) (h1 : clientFor d = Except.ok c)
    (h2 : tryBlock c = Except.error ()) :
    check_materialization clientFor d =
      Except.ok (none, none, none, c.local_server, none) :=
  check_of_tryError h1 h2

/-- Claim C1, witness for the amended theorem: a concrete client whose
fetches all raise yields the null-sentinel tuple. -/
theorem check_fetchError_returns_sentinel_witness :
    check_materialization (fun _ => Except.ok failClient) "minnie65_public" =
      Except.ok (none, none, none, failClient.local_server, none) :=
  check_fetchError_returns_sentinel (fun _ => Except.ok failClient)
    "minnie65_public" failClient rfl rfl

/-- Claim C2.  If the check of a datastack raises at a fetch step (client
acquired, `try:` body raises), the audit loop produces the same report with
or without that datastack — it is absent from the report, no partial row is
emitted, and no exception escapes the loop on its account — and every
report has at most as many rows as there are enumerated datastacks. -/
theorem failedCheck_absent_from_report (env : Env) (cd : Int) (d : String)
    (c : MatClient) (pre post : List String)
    (h1 : env.clientFor d = Except.ok c) (h2 : tryBlock c = Except.error ()) :
    auditLoop env cd (pre ++ d :: post) = auditLoop env cd (pre ++ post) ∧
      ∀ (ds : List String) (rows : List (List String)),
        auditLoop env cd ds = Except.ok rows → rows.length ≤ ds.length := by
  refine ⟨?_, auditLoop_length env cd⟩
  induction pre with
  | nil =>
    simp only [List.nil_append]
    exact auditLoop_cons_none env cd d post (check_of_tryError h1 h2)
  | cons p pre ih =>
    simp only [List.cons_append]
    cases hc : check_materialization env.clientFor p with
    | error e1 =>
      cases e1
      rw [auditLoop_cons_err env cd p _ hc, auditLoop_cons_err env cd p _ hc]
    | ok t =>
      obtain ⟨c2, -, hcase | hcase⟩ := check_inv hc
      · obtain ⟨-, rfl⟩ := hcase
        rw [auditLoop_cons_none env cd p _ hc, auditLoop_cons_none env cd p _ hc, ih]
      · obtain ⟨l, e0, ts, sv, -, rfl⟩ := hcase
        rw [auditLoop_cons_row env cd p _ hc, auditLoop_cons_row env cd p _ hc, ih]

/-- Claim C2, witness: with a factory under which the datastack `broken`
resolves but every fetch raises, the audit of `["minnie65", "broken"]`
equals the audit of `["minnie65"]`. -/
theorem failedCheck_absent_from_report_witness :
    auditLoop envMixed 739010 (["minnie65"] ++ "broken" :: []) =
      auditLoop envMixed 739010 (["minnie65"] ++ []) ∧
      ∀ (ds : List String) (rows : List (List String)),
        auditLoop envMixed 739010 ds = Except.ok rows → rows.length ≤ ds.length :=
  failedCheck_absent_from_report envMixed 739010 "broken" failClient
    ["minnie65"] [] (by simp [envMixed]) rfl

/-- Claim C3.  Every row the audit loop adds to the report was formatted
with the success flag equal to the boolean equality test
`latest_version == expected_latest_version` (Python semantics: comparing
with `None` gives `False`), and its Status cell (index 7) is `"Success"`
exactly when that equality holds and `"Failed"` otherwise; cells 4 and 3
hold the compared latest and expected versions. -/
theorem report_status_reflects_equality (env : Env) (cd : Int) (ds : List String)
    (rows : List (List String)) (h : auditLoop env cd ds = Except.ok rows) :
    ∀ row ∈ rows, ∃ l ev,
      row[4]? = some (toString l) ∧
      row[3]? = some (pyStrOptInt ev) ∧
      row[7]? = some (if pyEqIntOpt l ev then "Success" else "Failed") ∧
      (pyEqIntOpt l ev = true ↔ some l = ev) := by
  intro row hrow
  obtain ⟨d, server, sv, l, ev, ts, rfl⟩ :=
    auditLoop_rows_shape env cd ds rows h row hrow
  refine ⟨l, ev, rfl, rfl, rfl, ?_⟩
  cases ev with
  | none => simp [pyEqIntOpt]
  | some e0 => simp [pyEqIntOpt]

/-- Claim C3, witness: a concrete audit producing one row with
latest version 3 and expected version 5, whose Status cell is `"Failed"`. -/
theorem report_status_reflects_equality_witness :
    ∃ l ev,
      (format_row_data "minnie65" "https://global.daf-apis.com" "4.35.2" 3 (some 5)
          ⟨739000⟩ 739010 (pyEqIntOpt 3 (some 5)) envGood.strftimeYmd)[4]? =
        some (toString l) ∧
      (format_row_data "minnie65" "https://global.daf-apis.com" "4.35.2" 3 (some 5)
          ⟨739000⟩ 739010 (pyEqIntOpt 3 (some 5)) envGood.strftimeYmd)[3]? =
        some (pyStrOptInt ev) ∧
      (format_row_data "minnie65" "https://global.daf-apis.com" "4.35.2" 3 (some 5)
          ⟨739000⟩ 739010 (pyEqIntOpt 3 (some 5)) envGood.strftimeYmd)[7]? =
        some (if pyEqIntOpt l ev then "Success" else "Failed") ∧
      (pyEqIntOpt l ev = true ↔ some l = ev) :=
  report_status_reflects_equality envGood 739010 ["minnie65"]
    [format_row_data "minnie65" "https://global.daf-apis.com" "4.35.2" 3 (some 5)
      ⟨739000⟩ 739010 (pyEqIntOpt 3 (some 5)) envGood.strftimeYmd]
    rfl _ (List.mem_singleton.mpr rfl)

/-- Claim C4.  With a non-empty override list, the enumerator returns
exactly that list sorted lexicographically — a sorted permutation of the
override — and the result is the same for every environment and server
configuration (no network access is consulted). -/
theorem enumerator_override_sorted (env : Env) (servers override : List String)
    (h : override ≠ []) :
    get_datastacks_to_check env servers override = Except.ok (pysorted override) ∧
      (pysorted override).Perm override ∧
      List.Sorted (fun a b : String => a ≤ b) (pysorted override) ∧
      ∀ (env2 : Env) (servers2 : List String),
        get_datastacks_to_check env2 servers2 override =
          get_datastacks_to_check env servers override := by
  have hne : override.isEmpty = false := by
    cases override with
    | nil => exact absurd rfl h
    | cons a l => rfl
  refine ⟨?_, List.mergeSort_perm override _, List.sorted_mergeSort' override, ?_⟩
  · simp [get_datastacks_to_check, hne]
  · intro env2 servers2
    simp [get_datastacks_to_check, hne]

/-- Claim C4, witness: the override `["zeta", "alpha"]` is returned sorted,
with no reference to the servers of the environment. -/
theorem enumerator_override_sorted_witness :
    get_datastacks_to_check envGood [] ["zeta", "alpha"] =
      Except.ok (pysorted ["zeta", "alpha"]) :=
  (enumerator_override_sorted envGood [] ["zeta", "alpha"] (by simp)).1

/-- Claim C5.  With an empty override, the enumerator returns the
concatenation, in configured server order, of the datastack list of each
server sorted lexicographically within that sublist only (each sublist is
a sorted permutation of the listing of that server) — not a single global sort. -/
theorem enumerator_servers_concat (env : Env) (servers : List String)
    (ds : String → List String)
    (h : ∀ s ∈ servers, env.info_get_datastacks s = Except.ok (ds s)) :
    get_datastacks_to_check env servers [] =
        Except.ok ((servers.map fun s => pysorted (ds s)).flatten) ∧
      ∀ s ∈ servers, List.Sorted (fun a b : String => a ≤ b) (pysorted (ds s)) ∧
        (pysorted (ds s)).Perm (ds s) := by
  constructor
  · have hfl := fetchLoop_ok env ds servers [] h
    simpa [get_datastacks_to_check] using hfl
  · intro s _
    exact ⟨List.sorted_mergeSort' (ds s), List.mergeSort_perm (ds s) _⟩

/-- Claim C5, witness: two configured servers, the first listing
`["zz_stack", "aa_stack"]` and the second `["mm_stack"]`; the result is the
per-server sorted concatenation. -/
theorem enumerator_servers_concat_witness :
    get_datastacks_to_check envGood
        ["https://global.daf-apis.com", "https://globalv1.em.brain.allentech.org"] [] =
      Except.ok ((["https://global.daf-apis.com",
        "https://globalv1.em.brain.allentech.org"].map
          fun s => pysorted (dsTwo s)).flatten) :=
  (enumerator_servers_concat envGood
    ["https://global.daf-apis.com", "https://globalv1.em.brain.allentech.org"]
    dsTwo (fun s _ => rfl)).1

/-- Claim C6.  For every successfully produced record, if the
expired-inclusive version list is a superset of the active version list
(both non-empty), then the expected latest version is at least the active
latest version, each being the maximum of its respective set. -/
theorem expected_ge_active (clientFor : String → Except Unit MatClient) (d : String)
    (c : MatClient) (act expd : List Int) (l e0 : Int) (ts : Option PyDateTime)
    (srv : String) (sv : Option String)
    (hcf : clientFor d = Except.ok c)
    (hact : c.get_versions = Except.ok act)
    (hexp : c.get_versions_expired = Except.ok expd)
    (hne1 : act ≠ []) (hne2 : expd ≠ [])
    (hsub : ∀ x ∈ act, x ∈ expd)
    (hck : check_materialization clientFor d =
      Except.ok (some l, some e0, ts, srv, sv)) :
    l ≤ e0 := by
  obtain ⟨c2, hcf2, hcase | hcase⟩ := check_inv hck
  · obtain ⟨-, habs⟩ := hcase
    simp [Prod.ext_iff] at habs
  · obtain ⟨l2, e2, ts2, sv2, htb, heq⟩ := hcase
    obtain rfl : c = c2 := by
      have hcc := hcf.symm.trans hcf2
      injection hcc
    simp only [Prod.mk.injEq, Option.some.injEq] at heq
    obtain ⟨rfl, rfl, -, -, -⟩ := heq
    obtain ⟨act2, expd2, hact2, hexp2, hm1, hm2, -, -⟩ := tryBlock_ok_inv htb
    obtain rfl : act = act2 := by
      have haa := hact.symm.trans hact2
      injection haa
    obtain rfl : expd = expd2 := by
      have hee := hexp.symm.trans hexp2
      injection hee
    exact pymax_le hm2 _ (hsub _ (pymax_mem hm1))

/-- Claim C6, witness: active versions `[1, 3]`, expired-inclusive
versions `[1, 3, 5]`; the produced record has latest 3 and expected 5,
and 3 ≤ 5. -/
theorem expected_ge_active_witness :
    check_materialization goodFor "minnie65_phase3" = Except.ok okTuple ∧
      (3 : Int) ≤ 5 :=
  ⟨rfl, expected_ge_active goodFor "minnie65_phase3" goodClient [1, 3] [1, 3, 5]
    3 5 (some ⟨739000⟩) "https://global.daf-apis.com" (some "4.35.2")
    rfl rfl rfl (by simp) (by simp) (by decide) rfl⟩

/-- Claim C7.  The Days Old cell (index 6) of every formatted row is the
string of `(current_day - timestamp.date()).days`, exact integer date
arithmetic; that value is non-negative whenever the date of the timestamp is at
most the current date, and is zero exactly when the two dates coincide. -/
theorem row_daysOld_arith (datastack server sv : String) (l : Int) (ev : Option Int)
    (ts : PyDateTime) (cd : Int) (success : Bool) (fmt : Int → String) :
    (format_row_data datastack server sv l ev ts cd success fmt)[6]? =
        some (toString (cd - ts.dateOrdinal)) ∧
      (ts.dateOrdinal ≤ cd → 0 ≤ cd - ts.dateOrdinal) ∧
      (cd - ts.dateOrdinal = 0 ↔ ts.dateOrdinal = cd) := by
  refine ⟨rfl, fun h => by omega, by omega⟩

/-- Claim C7, witness: a row whose timestamp date equals the current date
has Days Old zero. -/
theorem row_daysOld_arith_witness :
    (format_row_data "minnie65" "https://global.daf-apis.com" "4.35.2" 3 (some 3)
        ⟨739000⟩ 739000 true (fun _ => "2024-01-01"))[6]? =
        some (toString ((739000 : Int) - 739000)) ∧
      ((739000 : Int) ≤ 739000 → 0 ≤ (739000 : Int) - 739000) ∧
      ((739000 : Int) - 739000 = 0 ↔ (739000 : Int) = 739000) :=
  row_daysOld_arith "minnie65" "https://global.daf-apis.com" "4.35.2" 3 (some 3)
    ⟨739000⟩ 739000 true (fun _ => "2024-01-01")

/-- Claim C8.  `current_day` is read from the clock exactly once, at index
0, before the audit loop: two clocks agreeing at index 0 yield identical
runs, and every row of a successful run is formatted against that single
captured value `clock 0`. -/
theorem currentDay_captured_once :
    (∀ (env : Env) (c1 c2 : Nat → Int) (servers override : List String),
        c1 0 = c2 0 →
        main env c1 servers override = main env c2 servers override) ∧
      (∀ (env : Env) (clock : Nat → Int) (servers override : List String)
          (rows : List (List String)),
        main env clock servers override = Except.ok rows →
        ∀ row ∈ rows, ∃ d server sv l ev ts,
          row = format_row_data d server sv l ev ts (clock 0)
            (pyEqIntOpt l ev) env.strftimeYmd) := by
  constructor
  · intro env c1 c2 servers override h
    unfold main
    rw [h]
  · intro env clock servers override rows h row hrow
    unfold main at h
    cases hg : get_datastacks_to_check env servers override with
    | error e1 => simp only [hg] at h; simp at h
    | ok ds2 =>
      simp only [hg] at h
      exact auditLoop_rows_shape env (clock 0) ds2 rows h row hrow

/-- Claim C8, witness: two clocks agreeing at index 0 but differing
everywhere else produce the same report. -/
theorem currentDay_captured_once_witness :
    main envGood clock1 [] ["minnie65"] = main envGood clock2 [] ["minnie65"] :=
  currentDay_captured_once.1 envGood clock1 clock2 [] ["minnie65"] rfl

/-- Claim C9.  Whenever the client is acquired (the only case in which the
function returns at all), `check_materialization` returns a 5-tuple whose
fourth element is `client.local_server`, populated even when every other
data field is the `None` sentinel — despite the declared 4-tuple return
annotation in the source. -/
theorem check_local_server_always (clientFor : String → Except Unit MatClient)
    (d : String) (c : MatClient) (h : clientFor d = Except.ok c) :
    ∃ lv ev ts sv, check_materialization clientFor d =
        Except.ok (lv, ev, ts, c.local_server, sv) ∧
      (tryBlock c = Except.error () →
        lv = none ∧ ev = none ∧ ts = none ∧ sv = none) := by
  unfold check_materialization
  simp only [h]
  cases htb : tryBlock c with
  | error e1 =>
    cases e1
    exact ⟨none, none, none, none, rfl, fun _ => ⟨rfl, rfl, rfl, rfl⟩⟩
  | ok v =>
    obtain ⟨l, e0, ts, sv⟩ := v
    exact ⟨some l, some e0, some ts, some sv, rfl, fun hc => by simp at hc⟩

/-- Claim C9, witness: a client whose every fetch raises still reports its
resolved `local_server` in the fourth tuple slot. -/
theorem check_local_server_always_witness :
    ∃ lv ev ts sv, check_materialization (fun _ => Except.ok failClient)
        "flywire_fafb" = Except.ok (lv, ev, ts, failClient.local_server, sv) ∧
      (tryBlock failClient = Except.error () →
        lv = none ∧ ev = none ∧ ts = none ∧ sv = none) :=
  check_local_server_always (fun _ => Except.ok failClient) "flywire_fafb"
    failClient rfl

/-- Claim C10.  In every tuple `check_materialization` returns, the four
data fields (latest version, expected latest version, timestamp, server
version label) are all `None` together or all non-`None` together, so
testing `latest_version is None` alone suffices to detect a failed check. -/
theorem check_all_or_nothing (clientFor : String → Except Unit MatClient)
    (d : String) (t : CheckResult)
    (h : check_materialization clientFor d = Except.ok t) :
    (t.1 = none ∧ t.2.1 = none ∧ t.2.2.1 = none ∧ t.2.2.2.2 = none) ∨
      (∃ l e0 ts sv, t.1 = some l ∧ t.2.1 = some e0 ∧
        t.2.2.1 = some ts ∧ t.2.2.2.2 = some sv) := by
  obtain ⟨c, -, hcase | hcase⟩ := check_inv h
  · obtain ⟨-, rfl⟩ := hcase
    exact Or.inl ⟨rfl, rfl, rfl, rfl⟩
  · obtain ⟨l, e0, ts, sv, -, rfl⟩ := hcase
    exact Or.inr ⟨l, e0, ts, sv, rfl, rfl, rfl, rfl⟩

/-- Claim C10, witness: the tuple produced for `goodClient` has all four
data fields populated. -/
theorem check_all_or_nothing_witness :
    (okTuple.1 = none ∧ okTuple.2.1 = none ∧ okTuple.2.2.1 = none ∧
        okTuple.2.2.2.2 = none) ∨
      (∃ l e0 ts sv, okTuple.1 = some l ∧ okTuple.2.1 = some e0 ∧
        okTuple.2.2.1 = some ts ∧ okTuple.2.2.2.2 = some sv) :=
  check_all_or_nothing goodFor "zheng_ca3" okTuple rfl

end MatStatus
